import Mathlib

/-!
Verification of the Dual-Representation Coherence Optimizer against its
source modules.  The definitions below are shallow embeddings of the
Python functions in `Nexus-Prime-pre-build/quantum_state_manager.py`,
`Nexus-Prime-pre-build/quantum_neural_bridge-core.py`,
`Nexus-Prime-pre-build/nexus_transformation_core.py`,
`Nexus-Prime-pre-build/Nexus-Prime-prototype-implementation/quantum-implementation.py`
and `src/quantum_meta/meta_cognitive/processor.py`.
Machine floats are modelled as exact reals (ℝ), rationals (ℚ) where the
code only compares and adds, and numpy complex entries as ℂ.
-/

namespace QuantumFramework

/-- `EPSILON = 1e-12`, the numerical precision threshold of
`processor.py` (`EPSILON = 1e-12`). -/
noncomputable def EPSILON : ℝ := 1 / 10 ^ 12

/-- `MAX_COHERENCE = 1.0 - EPSILON` from `processor.py`. -/
noncomputable def MAX_COHERENCE : ℝ := 1 - EPSILON

/-! ## Convergence tracker (`nexus_transformation_core.py`, `CoherenceTracker`)

The tracker stores a stability threshold, a running coherence value and a
history of records `{coherence, delta}` (timestamps are irrelevant to the
predicate and omitted).  All arithmetic here is addition and comparison of
floats, embedded as exact rationals, so the predicate stays decidable. -/

/-- One entry of `CoherenceTracker.coherence_history`:
the dict `{'coherence': ..., 'delta': ...}` (timestamp dropped). -/
structure CoherenceRecord where
  coherence : ℚ
  delta : ℚ
deriving DecidableEq

/-- `CoherenceTracker` from `nexus_transformation_core.py` (the string
`tracker_id` plays no role in any computation and is omitted). -/
structure CoherenceTracker where
  stabilityThreshold : ℚ
  currentCoherence : ℚ
  coherenceHistory : List CoherenceRecord
deriving DecidableEq

/-- `CoherenceTracker.update`: `current_coherence += delta` and append a
record to the history. -/
def CoherenceTracker.update (t : CoherenceTracker) (d : ℚ) : CoherenceTracker :=
  { t with
    currentCoherence := t.currentCoherence + d
    coherenceHistory :=
      t.coherenceHistory ++ [⟨t.currentCoherence + d, d⟩] }

/-- Python `l[-n:]`: the last `n` elements of a list (all of them when the
list is shorter). -/
def lastN {α : Type} (n : ℕ) (l : List α) : List α :=
  l.drop (l.length - n)

/-- `CoherenceTracker.is_optimal` from `nexus_transformation_core.py`
lines 429-433: `current_coherence >= stability_threshold` and
`len(coherence_history) >= 3` and every one of the last **3** records has
`abs(delta) < 0.01`.  The predicate takes no window or threshold
argument. -/
def CoherenceTracker.isOptimal (t : CoherenceTracker) : Prop :=
  t.stabilityThreshold ≤ t.currentCoherence ∧
    3 ≤ t.coherenceHistory.length ∧
      ∀ r ∈ lastN 3 t.coherenceHistory, |r.delta| < 1 / 100

instance (t : CoherenceTracker) : Decidable t.isOptimal := by
  unfold CoherenceTracker.isOptimal; infer_instance

/-- Follows the spec's words for `is_converged(window, threshold)`:
`len(history) ≥ window` AND `score ≥ threshold` AND all of the last
`window` deltas have `|delta| < 0.01`.  Stated as a second definition to
be compared with `CoherenceTracker.isOptimal`, which is embedded from the
code. -/
def specIsConverged (t : CoherenceTracker) (window : ℕ) (threshold : ℚ) : Prop :=
  window ≤ t.coherenceHistory.length ∧
    threshold ≤ t.currentCoherence ∧
      ∀ r ∈ lastN window t.coherenceHistory, |r.delta| < 1 / 100

instance (t : CoherenceTracker) (w : ℕ) (θ : ℚ) : Decidable (specIsConverged t w θ) := by
  unfold specIsConverged; infer_instance

/-! ## Bridge convergence check (`quantum_neural_bridge-core.py`, `_check_convergence`)

`_check_convergence` reads and mutates `self.coherence_history`, a list
created once in `__init__` and never reset between `optimize_bridge_coherence`
invocations.  It is embedded as explicit state passing: the function maps
the pre-state of the history (plus the cycle's `bridge_coupling` metric and
the configured threshold) to the decision and the post-state. -/

/-- `QuantumNeuralBridge._check_convergence` lines 220-233: if fewer than
two recorded couplings, append and report `False`; otherwise compare the
new coupling against the last recorded one, append, and report
`|delta| < threshold`. -/
def checkConvergence (threshold coupling : ℚ) (history : List ℚ) :
    Bool × List ℚ :=
  if history.length < 2 then (false, history ++ [coupling])
  else (decide (|coupling - (history.getLast?.getD 0)| < threshold),
        history ++ [coupling])

/-! ## State records

`QuantumState` as used by `quantum_state_manager.py` (after line 200) and
declared in `quantum_neural_bridge-core.py`: an amplitude matrix, a phase
matrix and a scalar coherence metric, plus an entanglement-pattern
dictionary that no embedded computation reads.  numpy arrays are flattened
to lists, as the code itself does via `reshape(-1)` / `np.mean`. -/

/-- `QuantumState(amplitude_matrix, phase_matrix, coherence_metric,
entanglement_pattern)` from `quantum_neural_bridge-core.py`. -/
structure QuantumStateM where
  amplitudeMatrix : List ℂ
  phaseMatrix : List ℝ
  coherenceMetric : ℝ
  entanglementPattern : List (ℕ × List ℂ)

/-- `NeuralState(activation_matrix, weight_tensors, quantum_coupling,
adaptation_history)` from `quantum_neural_bridge-core.py` (the coupling
dictionary's keys and the history dicts are indexed by ℕ). -/
structure NeuralStateM where
  activationMatrix : List ℝ
  weightTensors : List (List ℝ)
  quantumCoupling : List (ℕ × List ℝ)
  adaptationHistory : List ℕ

/-! ## Numeric helpers (`np.mean`, `np.std`, L2 norm) -/

/-- `np.mean` over a flattened real array. -/
noncomputable def listMean (l : List ℝ) : ℝ := l.sum / l.length

/-- `np.mean` over a flattened complex array. -/
noncomputable def listMeanC (l : List ℂ) : ℂ := l.sum / (l.length : ℂ)

/-- `np.std` (population standard deviation):
`sqrt(mean((x - mean(x))^2))`. -/
noncomputable def listStd (l : List ℝ) : ℝ :=
  Real.sqrt (listMean (l.map fun x => (x - listMean l) ^ 2))

/-- Squared L2 norm of a flattened complex array: `Σ |x_i|²`. -/
noncomputable def normSqSum (x : List ℂ) : ℝ :=
  (x.map Complex.normSq).sum

/-- The L2 norm `sqrt(Σ |x_i|²)` of a flattened complex array — the metric
in which the spec states its normalization invariant. -/
noncomputable def l2norm (x : List ℂ) : ℝ := Real.sqrt (normSqSum x)

/-! ## StateAlgebra (`processor.py`) -/

/-- `PatternRecognitionManifold._normalize_quantum_state`
(`processor.py` lines 54-61): `|ψ⟩ / sqrt(|⟨ψ|ψ⟩| + ε)` with
`⟨ψ|ψ⟩ = np.vdot(state, state) = Σ conj(s_i)·s_i`. -/
noncomputable def normalizeQuantumState (x : List ℂ) : List ℂ :=
  x.map fun a =>
    a / ((Real.sqrt (Complex.abs ((x.map fun b => (starRingEnd ℂ) b * b).sum) + EPSILON) : ℝ) : ℂ)

/-- `PatternRecognitionManifold._bound_coherence` (`processor.py` lines
63-69): `np.clip(value, 0.0, 1 - ε)`. -/
noncomputable def boundCoherence (v : ℝ) : ℝ :=
  min (max v 0) MAX_COHERENCE

/-! ## Bounded coherence metric
(`quantum-implementation.py` lines 67-71 and
`quantum-cognitive-bridge.py` lines 220-236, both named
`calculate_coherence`) -/

/-- The off-diagonal magnitude sum of `ρ = np.outer(x, x.conj())`:
`np.sum(np.abs(rho - np.diag(np.diag(rho))))`, i.e. `Σ_{i≠j} |x_i·conj(x_j)|`
(the subtracted diagonal contributes `|0| = 0`). -/
noncomputable def offDiagAbsSum {D : ℕ} (x : Fin D → ℂ) : ℝ :=
  ∑ i, ∑ j, if i = j then 0 else Complex.abs (x i * (starRingEnd ℂ) (x j))

/-- The divisor `self.dimension * (self.dimension - 1)` (Python integer
arithmetic, embedded over ℝ so that `D = 0` also yields `0·(−1) = 0`). -/
noncomputable def coherenceDivisor (D : ℕ) : ℝ := (D : ℝ) * ((D : ℝ) - 1)

/-- `calculate_coherence` from `quantum-implementation.py` /
`quantum-cognitive-bridge.py`: off-diagonal magnitude sum of the density
matrix divided by `D·(D−1)`.  There is **no** clipping in the source. -/
noncomputable def calculateCoherence {D : ℕ} (x : Fin D → ℂ) : ℝ :=
  offDiagAbsSum x / coherenceDivisor D

/-! ## Score combination (`quantum_state_manager.py`) -/

/-- `CoherenceOptimizer._calculate_neural_stability` (lines 358-368):
`1 / (1 + np.mean([np.std(t) for t in weight_tensors]))`. -/
noncomputable def calculateNeuralStability (s : NeuralStateM) : ℝ :=
  1 / (1 + listMean (s.weightTensors.map listStd))

/-- `CoherenceOptimizer._calculate_cross_coherence` (lines 370-385):
`1 - np.abs(np.mean(amplitude_matrix) - np.mean([np.mean(t) for t in
weight_tensors]))`.  Note the neural signature is taken from the weight
tensors, not from the activation matrix, and no clipping is applied. -/
noncomputable def calculateCrossCoherence (q : QuantumStateM) (n : NeuralStateM) : ℝ :=
  1 - Complex.abs (listMeanC q.amplitudeMatrix -
        ((listMean (n.weightTensors.map listMean) : ℝ) : ℂ))

/-- Follows the spec's words for the cross term:
`1 − |mean(field.amplitude) − mean(adaptive.activations)|`, clipped to
`[0,1]`.  Stated as a second definition to be compared with
`calculateCrossCoherence`, which is embedded from the code. -/
noncomputable def specCrossCoherence (q : QuantumStateM) (n : NeuralStateM) : ℝ :=
  min (max (1 - Complex.abs (listMeanC q.amplitudeMatrix -
        ((listMean n.activationMatrix : ℝ) : ℂ))) 0) 1

/-- `CoherenceOptimizer._verify_coherence` (lines 329-356): the weighted
combination `w_q·coherence_metric + w_n·stability + w_c·cross` of the
stored field coherence metric, the neural stability and the cross
coherence. -/
noncomputable def verifyCoherence (wq wn wc : ℝ) (q : QuantumStateM) (n : NeuralStateM) : ℝ :=
  wq * q.coherenceMetric + wn * calculateNeuralStability n +
    wc * calculateCrossCoherence q n

/-! ## Coupling matrix (`quantum_state_manager.py`, `_calculate_coupling_matrix`) -/

/-- Elementwise sum of two equal-length vectors (numpy `+`). -/
def vecAdd (a b : List ℝ) : List ℝ := List.zipWith (· + ·) a b

/-- The neural signature `np.mean([t.reshape(-1) for t in weight_tensors],
axis=0)`: the elementwise mean of the flattened tensors.  numpy fails when
the list is empty or the flattened tensors have unequal lengths (a ragged
stack); those are the only failure paths, returned as `none`. -/
noncomputable def neuralSignature : List (List ℝ) → Option (List ℝ)
  | [] => none
  | t :: ts =>
    if ts.all fun u => u.length = t.length then
      some ((ts.foldl vecAdd t).map fun v => v / (ts.length + 1))
    else none

/-- `CoherenceOptimizer._calculate_coupling_matrix` (lines 201-223):
`np.abs(np.outer(q_flat, n_sig)) * np.exp(1j·np.angle(phase)).reshape(-1,1)`.
Entry `(i, j)` is `|q_i · n_j| · exp(i·arg(phase_i))`.  `np.outer` accepts
any pair of lengths, so no field-versus-adaptive dimension check exists;
the broadcast of the phase column requires one phase entry per flattened
amplitude entry, checked here as a length equality. -/
noncomputable def calculateCouplingMatrix (q : QuantumStateM) (n : NeuralStateM) :
    Option (List (List ℂ)) :=
  (neuralSignature n.weightTensors).bind fun nsig =>
    if q.phaseMatrix.length = q.amplitudeMatrix.length then
      some (((q.amplitudeMatrix.zip q.phaseMatrix).map fun qp =>
        nsig.map fun (nj : ℝ) =>
          ((Complex.abs (qp.1 * ((nj : ℝ) : ℂ)) : ℝ) : ℂ) *
            Complex.exp (Complex.I * ((Complex.arg ((qp.2 : ℝ) : ℂ) : ℝ) : ℂ))))
    else none

/-! ## Per-iteration correction steps (`quantum_state_manager.py`)

`_apply_quantum_optimization` (lines 225-274) commits, at each inner
iteration, `amplitude + learning_rate · corrections['amplitude']` and
`phase + learning_rate · corrections['phase']` with **no** re-normalization,
and recomputes the coherence metric.  The correction generator
`_compute_quantum_corrections` and the metric recomputation
`_calculate_coherence_metric` are not defined anywhere in the repository,
so the step is embedded with the corrections and the recomputed metric as
explicit parameters. -/

/-- One committed update of `_apply_quantum_optimization`:
`amplitude += lr·corrAmp`, `phase += lr·corrPhase`, coherence metric
replaced by the recomputed value; the entanglement pattern is carried
over unchanged, exactly as in lines 245-262. -/
noncomputable def applyQuantumOptimizationStep (s : QuantumStateM)
    (corrAmp : List ℂ) (corrPhase : List ℝ) (newCoh : ℝ) (lr : ℝ) :
    QuantumStateM :=
  { amplitudeMatrix := List.zipWith (fun a c => a + (lr : ℂ) * c) s.amplitudeMatrix corrAmp
    phaseMatrix := List.zipWith (fun p c => p + lr * c) s.phaseMatrix corrPhase
    coherenceMetric := newCoh
    entanglementPattern := s.entanglementPattern }

/-- One committed update of `_apply_neural_optimization` (lines 276-327):
each weight tensor receives `tensor + lr·adaptation`, the coupling
dictionary is replaced by the (externally computed) updated coupling, and
the adaptation history is extended by the iteration's record.  The
adaptation generator `_compute_neural_adaptations` is likewise absent from
the repository and is passed in explicitly. -/
def applyNeuralOptimizationStep (s : NeuralStateM)
    (weightUpdates : List (List ℝ)) (couplingUpdated : List (ℕ × List ℝ))
    (iter : ℕ) (lr : ℝ) : NeuralStateM :=
  { activationMatrix := s.activationMatrix
    weightTensors := List.zipWith
      (fun t u => List.zipWith (fun w a => w + lr * a) t u)
      s.weightTensors weightUpdates
    quantumCoupling := couplingUpdated
    adaptationHistory := s.adaptationHistory ++ [iter] }

/-! ## Optimization loop (`quantum_state_manager.py`,
`CoherenceOptimizer.optimize_coherence`, lines 93-128)

`for cycle in range(optimization_cycles)` runs the three phase functions
(whose bodies call helpers absent from the repository) and breaks early
when `_check_optimization_convergence(cycle)` (also absent) holds.  The
loop is embedded with the phase functions and the convergence test as
parameters; with a cycle budget of `0` the body never runs. -/

/-- The cycle loop of `optimize_coherence`: `fuel` cycles remaining,
`idx` the current cycle index. -/
def optimizeLoop (phase1 : QuantumStateM → QuantumStateM)
    (phase2 : NeuralStateM → QuantumStateM → NeuralStateM)
    (phase3 : QuantumStateM → NeuralStateM → QuantumStateM × NeuralStateM)
    (conv : ℕ → Bool) :
    ℕ → ℕ → QuantumStateM → NeuralStateM → QuantumStateM × NeuralStateM
  | 0, _, q, n => (q, n)
  | fuel + 1, idx, q, n =>
    let q1 := phase1 q
    let n1 := phase2 n q1
    let qn := phase3 q1 n1
    if conv idx then (qn.1, qn.2)
    else optimizeLoop phase1 phase2 phase3 conv fuel (idx + 1) qn.1 qn.2

/-- `CoherenceOptimizer.optimize_coherence`, parameterized by the three
phase transformations and the convergence test. -/
def optimizeCoherence (cycles : ℕ)
    (phase1 : QuantumStateM → QuantumStateM)
    (phase2 : NeuralStateM → QuantumStateM → NeuralStateM)
    (phase3 : QuantumStateM → NeuralStateM → QuantumStateM × NeuralStateM)
    (conv : ℕ → Bool)
    (q : QuantumStateM) (n : NeuralStateM) : QuantumStateM × NeuralStateM :=
  optimizeLoop phase1 phase2 phase3 conv cycles 0 q n

/-! ## Helper lemmas -/

/-- A rate of `0` makes the elementwise additive update of a real vector a
no-op (for equal lengths, as numpy broadcasting requires). -/
lemma zipWith_zero_rate_real (l u : List ℝ) (h : u.length = l.length) :
    List.zipWith (fun w a => w + (0 : ℝ) * a) l u = l := by
  induction l generalizing u with
  | nil => simp
  | cons x xs ih =>
    cases u with
    | nil => simp at h
    | cons y ys =>
      rw [List.zipWith_cons_cons, ih ys (by simpa using h)]
      norm_num

/-- A rate of `0` makes the elementwise additive update of a complex vector
a no-op. -/
lemma zipWith_zero_rate_complex (l u : List ℂ) (h : u.length = l.length) :
    List.zipWith (fun a c => a + (((0 : ℝ)) : ℂ) * c) l u = l := by
  induction l generalizing u with
  | nil => simp
  | cons x xs ih =>
    cases u with
    | nil => simp at h
    | cons y ys =>
      rw [List.zipWith_cons_cons, ih ys (by simpa using h)]
      norm_num

/-- A rate of `0` makes the per-tensor additive update of a weight-tensor
list a no-op. -/
lemma zipWith_zero_rate_tensors (ts us : List (List ℝ))
    (h : List.Forall₂ (fun t u => u.length = t.length) ts us) :
    List.zipWith (fun t u => List.zipWith (fun w a => w + (0 : ℝ) * a) t u) ts us = ts := by
  induction h with
  | nil => rfl
  | cons hlen _ ih =>
    rw [List.zipWith_cons_cons, zipWith_zero_rate_real _ _ hlen, ih]

/-! ## C2 — the tracker's convergence predicate -/

/-- A tracker whose last three deltas are small, whose fourth-from-last
delta is large, and whose score is above its threshold. -/
def trackerC2 : CoherenceTracker :=
  ⟨1/2, 1, [⟨1/2, 1/2⟩, ⟨501/1000, 1/1000⟩, ⟨502/1000, 1/1000⟩, ⟨503/1000, 1/1000⟩]⟩

/-- C2, counterexample: `is_optimal` ignores any window argument — with
window `4` the claimed predicate demands all of the last four deltas be
small and is false on `trackerC2` (its fourth-from-last delta is `1/2`),
yet the code's predicate is true there, because it always looks at the
last **3** deltas only. -/
theorem c2_counterexample :
    trackerC2.isOptimal ∧ ¬ specIsConverged trackerC2 4 trackerC2.stabilityThreshold := by
  constructor
  · refine ⟨by norm_num [trackerC2], by norm_num [trackerC2], ?_⟩
    intro r hr
    simp only [trackerC2, lastN, List.length_cons, List.length_nil] at hr
    norm_num at hr
    rcases hr with h | h | h <;> rw [h] <;> norm_num [abs_lt]
  · intro hspec
    have hmem := hspec.2.2 ⟨1/2, 1/2⟩ (by simp [trackerC2, lastN])
    norm_num [abs_lt] at hmem

/-- C2, amended: the tracker's convergence predicate takes no window or
threshold argument; it is equivalent to the spec's rule specialized to
window = 3 and threshold = the tracker's stored stability threshold. -/
theorem c2_theorem (t : CoherenceTracker) :
    t.isOptimal ↔ specIsConverged t 3 t.stabilityThreshold := by
  unfold CoherenceTracker.isOptimal specIsConverged
  tauto

/-! ## C9 — purity of the optimization / convergence decision -/

/-- C9, counterexample: the bridge convergence check is not a pure function
of the cycle's inputs — with the same coupling metric `1/2` and the same
threshold `1/1000`, a bridge with a fresh (empty) history reports no
convergence while a bridge whose history survived from earlier runs
reports convergence. -/
theorem c9_counterexample :
    (checkConvergence (1/1000) (1/2) []).1 = false ∧
      (checkConvergence (1/1000) (1/2) [1/2, 1/2]).1 = true := by
  constructor
  · rfl
  · unfold checkConvergence
    rw [if_neg (by norm_num)]
    simp only [List.getLast?]
    rw [decide_eq_true_eq]
    norm_num

/-- C9, amended: the convergence decision reads `self.coherence_history`,
which is appended to on every check and is never reset between `optimize`
invocations on the same object; while the history holds fewer than two
entries the check always reports `False` and records the coupling, so the
decision depends on state surviving from previous runs. -/
theorem c9_theorem (θ v : ℚ) (h : List ℚ) (hlen : h.length < 2) :
    checkConvergence θ v h = (false, h ++ [v]) := by
  unfold checkConvergence
  rw [if_pos hlen]

/-- Witness for C9 at the one-entry history `[1]`. -/
theorem c9_witness :
    ([(1 : ℚ)].length < 2) ∧
      checkConvergence (1/1000) (3/4) [(1 : ℚ)] = (false, [1, 3/4]) :=
  ⟨by decide, c9_theorem (1/1000) (3/4) [1] (by decide)⟩

/-! ## C10 — the unguarded division in the coherence metric -/

/-- C10: for dimension `D ≥ 2` the divisor `D·(D−1)` is positive and the
pre-clipping coherence value is a well-defined nonnegative real, while for
a one-dimensional state the divisor is exactly zero and the division is
unguarded in the source. -/
theorem c10_theorem :
    (∀ (D : ℕ) (x : Fin D → ℂ), 2 ≤ D →
        0 < coherenceDivisor D ∧ 0 ≤ calculateCoherence x) ∧
      coherenceDivisor 1 = 0 := by
  constructor
  · intro D x hD
    have hD2 : (2 : ℝ) ≤ (D : ℝ) := by exact_mod_cast hD
    have hdiv : 0 < coherenceDivisor D := by
      unfold coherenceDivisor; nlinarith
    refine ⟨hdiv, ?_⟩
    unfold calculateCoherence
    apply div_nonneg _ hdiv.le
    unfold offDiagAbsSum
    apply Finset.sum_nonneg
    intro i _
    apply Finset.sum_nonneg
    intro j _
    split
    · exact le_refl 0
    · exact Complex.abs.nonneg _
  · unfold coherenceDivisor; norm_num

/-- Witness for C10 at the two-dimensional all-ones state. -/
theorem c10_witness :
    2 ≤ 2 ∧ (0 < coherenceDivisor 2 ∧ 0 ≤ calculateCoherence (fun _ : Fin 2 => (1 : ℂ))) :=
  ⟨le_refl 2, c10_theorem.1 2 (fun _ => 1) (le_refl 2)⟩

/-! ## C1 — the combined score and its cross term -/

/-- Field state with zero-mean amplitude. -/
noncomputable def qC1 : QuantumStateM := ⟨[0, 0], [0, 0], 1/2, []⟩

/-- Adaptive state whose activation mean (0) differs from its weight-tensor
mean (5). -/
def nC1 : NeuralStateM := ⟨[0], [[5]], [], []⟩

/-- C1, counterexample: on `qC1`/`nC1` the code's cross term is
`1 − |mean(amplitude) − mean of weight-tensor means| = 1 − |0 − 5| = −4`,
which is negative (no clipping) and differs from the claimed
`1 − |mean(amplitude) − mean(activations)| = 1` (clipped), so the score of
`_verify_coherence` is not the claimed combination. -/
theorem c1_counterexample :
    calculateCrossCoherence qC1 nC1 = -4 ∧
      calculateCrossCoherence qC1 nC1 < 0 ∧
      specCrossCoherence qC1 nC1 = 1 := by
  have hcode : calculateCrossCoherence qC1 nC1 = -4 := by
    unfold calculateCrossCoherence qC1 nC1 listMeanC listMean
    simp only [List.sum_cons, List.sum_nil, List.map_cons, List.map_nil, List.length_cons,
      List.length_nil]
    rw [show ((0 : ℂ) + (0 + 0)) / ((2 : ℕ) : ℂ) = 0 by norm_num]
    rw [show ((((5 : ℝ) + 0) / ((1 : ℕ) : ℝ) + 0) / ((1 : ℕ) : ℝ) : ℝ) = 5 by norm_num]
    rw [show ((0 : ℂ) - ((5 : ℝ) : ℂ)) = (((-5 : ℝ)) : ℂ) by push_cast; ring]
    rw [Complex.abs_ofReal]
    norm_num
  refine ⟨hcode, by rw [hcode]; norm_num, ?_⟩
  unfold specCrossCoherence qC1 nC1 listMeanC listMean
  simp only [List.sum_cons, List.sum_nil, List.length_cons, List.length_nil]
  rw [show ((0 : ℂ) + (0 + 0)) / ((2 : ℕ) : ℂ) = 0 by norm_num]
  rw [show (((0 : ℝ) + 0) / ((1 : ℕ) : ℝ) : ℝ) = 0 by norm_num]
  simp

/-- C1, amended: the per-cycle score of `_verify_coherence` is the
weighted sum of the **stored** field coherence metric, the neural
stability, and the cross coherence computed from the weight-tensor means
(not the activations); the cross term is bounded above by 1 but is not
clipped below. -/
theorem c1_theorem (wq wn wc : ℝ) (q : QuantumStateM) (n : NeuralStateM) :
    verifyCoherence wq wn wc q n =
        wq * q.coherenceMetric + wn * calculateNeuralStability n +
          wc * calculateCrossCoherence q n ∧
      calculateCrossCoherence q n ≤ 1 := by
  refine ⟨rfl, ?_⟩
  unfold calculateCrossCoherence
  have h := Complex.abs.nonneg
    (listMeanC q.amplitudeMatrix - ((listMean (n.weightTensors.map listMean) : ℝ) : ℂ))
  linarith

/-! ## C7 — zero cycle budget -/

/-- Unnormalized field state (amplitude L2 norm 2). -/
def qC7 : QuantumStateM := ⟨[2, 0], [0, 0], 0, []⟩

/-- Trivial adaptive state. -/
def nC7 : NeuralStateM := ⟨[0], [[0]], [], []⟩

/-- C7, amended: running `optimize_coherence` with a cycle budget of `0`
returns the two input states exactly — the `for cycle in range(0)` loop
never executes, and no normalization pass or history append happens. -/
theorem c7_theorem (p1 : QuantumStateM → QuantumStateM)
    (p2 : NeuralStateM → QuantumStateM → NeuralStateM)
    (p3 : QuantumStateM → NeuralStateM → QuantumStateM × NeuralStateM)
    (conv : ℕ → Bool) (q : QuantumStateM) (n : NeuralStateM) :
    optimizeCoherence 0 p1 p2 p3 conv q n = (q, n) := rfl

/-- C7, counterexample: with a zero budget the returned field equals the
input exactly, and on the unnormalized input `qC7` that differs from the
result of a single normalization pass — so the claim's "unchanged up to a
single normalization pass" (normalization applied) is false here. -/
theorem c7_counterexample :
    optimizeCoherence 0 id (fun n _ => n) (fun q n => (q, n)) (fun _ => false) qC7 nC7
        = (qC7, nC7) ∧
      normalizeQuantumState qC7.amplitudeMatrix ≠ qC7.amplitudeMatrix := by
  refine ⟨rfl, ?_⟩
  intro h
  unfold qC7 normalizeQuantumState at h
  simp only [List.map_cons, List.map_nil, List.sum_cons, List.sum_nil, List.cons.injEq,
    and_true] at h
  obtain ⟨h2, -⟩ := h
  set A : ℝ := Complex.abs ((starRingEnd ℂ) 2 * 2 + ((starRingEnd ℂ) 0 * 0 + 0)) + EPSILON
    with hA
  have hAval : A = 4 + EPSILON := by
    rw [hA]
    congr 1
    rw [show ((starRingEnd ℂ) 2 * 2 + ((starRingEnd ℂ) 0 * 0 + 0) : ℂ) = ((4 : ℝ) : ℂ) by
      simp [map_ofNat]; norm_num]
    rw [Complex.abs_ofReal]
    norm_num
  have hApos : 0 < A := by rw [hAval]; norm_num [EPSILON]
  have hsq : (0 : ℝ) < Real.sqrt A := Real.sqrt_pos.2 hApos
  have hcne : ((Real.sqrt A : ℝ) : ℂ) ≠ 0 := by
    exact_mod_cast Complex.ofReal_ne_zero.2 (ne_of_gt hsq)
  rw [div_eq_iff hcne] at h2
  have hc1 : ((Real.sqrt A : ℝ) : ℂ) = 1 := by
    have h4 : (2 : ℂ) * 1 = 2 * ((Real.sqrt A : ℝ) : ℂ) := by rw [mul_one]; exact h2
    exact (mul_left_cancel₀ two_ne_zero h4).symm
  have hone : Real.sqrt A = 1 := by exact_mod_cast hc1
  rw [Real.sqrt_eq_one, hAval] at hone
  norm_num [EPSILON] at hone

/-! ## C8 — zero learning rate is a no-op on amplitude and weights -/

/-- C8: with learning rate `0` every committed iteration of
`_apply_quantum_optimization` leaves the amplitude and phase matrices
unchanged, and every committed iteration of `_apply_neural_optimization`
leaves every weight tensor unchanged (the corrections are purely additive
and rate-scaled). -/
theorem c8_theorem (q : QuantumStateM) (ca : List ℂ) (cp : List ℝ) (coh : ℝ)
    (hca : ca.length = q.amplitudeMatrix.length)
    (hcp : cp.length = q.phaseMatrix.length)
    (s : NeuralStateM) (wu : List (List ℝ)) (cu : List (ℕ × List ℝ)) (it : ℕ)
    (hwu : List.Forall₂ (fun t u => u.length = t.length) s.weightTensors wu) :
    (applyQuantumOptimizationStep q ca cp coh 0).amplitudeMatrix = q.amplitudeMatrix ∧
      (applyQuantumOptimizationStep q ca cp coh 0).phaseMatrix = q.phaseMatrix ∧
      (applyNeuralOptimizationStep s wu cu it 0).weightTensors = s.weightTensors := by
  refine ⟨?_, ?_, ?_⟩
  · exact zipWith_zero_rate_complex _ _ hca
  · exact zipWith_zero_rate_real _ _ hcp
  · exact zipWith_zero_rate_tensors _ _ hwu

/-- Adaptive state with a single weight tensor and an empty adaptation
log. -/
def nC8 : NeuralStateM := ⟨[1], [[1, 2]], [], []⟩

/-- C8, counterexample: it is not true that only the cycle counter
advances — with rate 0 a committed iteration leaves the weight tensors
unchanged yet still appends a record to the adaptation history. -/
theorem c8_counterexample :
    (applyNeuralOptimizationStep nC8 [[0, 0]] [] 7 0).weightTensors = nC8.weightTensors ∧
      (applyNeuralOptimizationStep nC8 [[0, 0]] [] 7 0).adaptationHistory
        ≠ nC8.adaptationHistory := by
  constructor
  · simp [applyNeuralOptimizationStep, nC8]
  · simp [applyNeuralOptimizationStep, nC8]

/-- Witness for C8 at concrete one-entry states. -/
theorem c8_witness :
    ([(5 : ℂ)].length = [(1 : ℂ)].length) ∧
      ([(7 : ℝ)].length = [(2 : ℝ)].length) ∧
      List.Forall₂ (fun (t u : List ℝ) => u.length = t.length) [[1, 2]] [[4, 4]] ∧
      ((applyQuantumOptimizationStep ⟨[1], [2], 3, []⟩ [5] [7] 9 0).amplitudeMatrix
          = [(1 : ℂ)] ∧
        (applyQuantumOptimizationStep ⟨[1], [2], 3, []⟩ [5] [7] 9 0).phaseMatrix
          = [(2 : ℝ)] ∧
        (applyNeuralOptimizationStep ⟨[0], [[1, 2]], [], []⟩ [[4, 4]] [] 0 0).weightTensors
          = [[1, 2]]) := by
  have hf : List.Forall₂ (fun (t u : List ℝ) => u.length = t.length) [[1, 2]] [[4, 4]] :=
    .cons rfl .nil
  exact ⟨rfl, rfl, hf,
    c8_theorem ⟨[1], [2], 3, []⟩ [5] [7] 9 rfl rfl ⟨[0], [[1, 2]], [], []⟩ [[4, 4]] [] 0 hf⟩

/-! ## Normalization lemmas -/

/-- `np.vdot(x, x) = Σ conj(x_i)·x_i` is the real number `Σ |x_i|²`. -/
lemma vdot_sum_eq (x : List ℂ) :
    (x.map fun a => (starRingEnd ℂ) a * a).sum = ((normSqSum x : ℝ) : ℂ) := by
  induction x with
  | nil => simp [normSqSum]
  | cons a l ih =>
    simp only [List.map_cons, List.sum_cons, normSqSum] at ih ⊢
    rw [mul_comm, Complex.mul_conj, ih]
    push_cast
    ring

lemma normSqSum_nonneg (x : List ℂ) : 0 ≤ normSqSum x := by
  unfold normSqSum
  apply List.sum_nonneg
  intro a ha
  obtain ⟨b, -, rfl⟩ := List.mem_map.1 ha
  exact Complex.normSq_nonneg b

lemma normSqSum_map_div (x : List ℂ) (c : ℂ) :
    normSqSum (x.map fun a => a / c) = normSqSum x / Complex.normSq c := by
  induction x with
  | nil => simp [normSqSum]
  | cons a l ih =>
    simp only [List.map_cons, normSqSum, List.sum_cons] at ih ⊢
    rw [Complex.normSq_div, ih]
    ring

/-- The L2 norm of the normalized state is `sqrt(S / (S + ε))` where `S` is
the squared norm of the input. -/
lemma l2norm_normalize (x : List ℂ) :
    l2norm (normalizeQuantumState x) = Real.sqrt (normSqSum x / (normSqSum x + EPSILON)) := by
  have hε : (0 : ℝ) < EPSILON := by norm_num [EPSILON]
  have hS := normSqSum_nonneg x
  unfold l2norm normalizeQuantumState
  rw [vdot_sum_eq, Complex.abs_ofReal, abs_of_nonneg hS, normSqSum_map_div,
    Complex.normSq_ofReal, Real.mul_self_sqrt (by linarith)]

/-- On input of squared norm at least 1 the normalization brings the L2
norm within `ε` of 1. -/
lemma normalize_norm_close (x : List ℂ) (h1 : 1 ≤ normSqSum x) :
    |l2norm (normalizeQuantumState x) - 1| < EPSILON := by
  have hε : (0 : ℝ) < EPSILON := by norm_num [EPSILON]
  have hε1 : EPSILON < 1 := by norm_num [EPSILON]
  set S := normSqSum x with hS
  have hSpos : (0 : ℝ) < S := lt_of_lt_of_le one_pos h1
  have hden : (0 : ℝ) < S + EPSILON := by linarith
  rw [l2norm_normalize, ← hS]
  set r := S / (S + EPSILON) with hr
  have hr_le_one : r ≤ 1 := by rw [hr, div_le_one hden]; linarith
  have hlow : (1 - EPSILON) ^ 2 < r := by
    rw [hr, lt_div_iff₀ hden]
    nlinarith [mul_le_mul_of_nonneg_left h1 hε.le,
      mul_le_mul_of_nonneg_right hε1.le (mul_nonneg hε.le hSpos.le),
      mul_le_mul_of_nonneg_right hε1.le (mul_nonneg hε.le hε.le),
      mul_pos hε hε]
  have hsq_lt : 1 - EPSILON < Real.sqrt r :=
    (Real.lt_sqrt (by linarith)).2 hlow
  have hsq_le : Real.sqrt r ≤ 1 := by
    rw [show (1 : ℝ) = Real.sqrt 1 by rw [Real.sqrt_one]]
    exact Real.sqrt_le_sqrt hr_le_one
  rw [abs_lt]
  constructor <;> linarith

/-- A zero-norm input is returned unchanged: all its entries are zero and
`0 / c = 0`. -/
lemma normalize_zero_norm (x : List ℂ) (h : normSqSum x = 0) :
    normalizeQuantumState x = x := by
  have hall : ∀ a ∈ x, a = 0 := by
    intro a ha
    have hnn : ∀ b ∈ x.map Complex.normSq, 0 ≤ b := by
      intro b hb
      obtain ⟨y, -, rfl⟩ := List.mem_map.1 hb
      exact Complex.normSq_nonneg y
    have hmem : Complex.normSq a ∈ x.map Complex.normSq := List.mem_map_of_mem _ ha
    have hle : Complex.normSq a ≤ 0 := by
      have := List.single_le_sum hnn _ hmem
      unfold normSqSum at h
      linarith
    exact Complex.normSq_eq_zero.1 (le_antisymm hle (Complex.normSq_nonneg a))
  unfold normalizeQuantumState
  conv_rhs => rw [← List.map_id x]
  apply List.map_congr_left
  intro a ha
  rw [hall a ha]
  simp

/-! ## C6 — totality and norm guarantee of `normalize` -/

/-- C6, counterexample: the nonzero input `[1e-6]` has squared norm
`1e-12 = ε`, so the guarded division produces a vector of L2 norm
`sqrt(1/2) ≈ 0.707`, nowhere near within `ε` of 1 — the claim's "for every
nonzero input the result's norm is within ε of 1" fails. -/
theorem c6_counterexample :
    ((1/1000000 : ℝ) : ℂ) ≠ 0 ∧
      ¬ |l2norm (normalizeQuantumState [((1/1000000 : ℝ) : ℂ)]) - 1| < EPSILON := by
  constructor
  · exact Complex.ofReal_ne_zero.2 (by norm_num)
  · rw [l2norm_normalize]
    have hS : normSqSum [((1/1000000 : ℝ) : ℂ)] = EPSILON := by
      simp [normSqSum, Complex.normSq_ofReal]
      norm_num [EPSILON]
    rw [hS]
    rw [show EPSILON / (EPSILON + EPSILON) = 1/2 by
      rw [div_eq_iff (by norm_num [EPSILON])]; ring]
    intro habs
    rw [abs_lt] at habs
    have h2 : (1 : ℝ) - EPSILON < Real.sqrt (1/2) := by
      have := habs.1
      linarith
    have h3 : ((1 : ℝ) - EPSILON) ^ 2 < 1/2 :=
      (Real.lt_sqrt (by norm_num [EPSILON])).1 h2
    norm_num [EPSILON] at h3

/-- C6, amended: `_normalize_quantum_state` never raises (it is total); a
zero-norm input is returned unchanged; and for every input of L2 norm at
least 1 the result's norm is within `ε` of 1 (for tiny nonzero inputs the
`ε` guard dominates and the guarantee fails). -/
theorem c6_theorem :
    (∀ x : List ℂ, normSqSum x = 0 → normalizeQuantumState x = x) ∧
      ∀ x : List ℂ, 1 ≤ normSqSum x →
        |l2norm (normalizeQuantumState x) - 1| < EPSILON :=
  ⟨normalize_zero_norm, normalize_norm_close⟩

/-- Witness for C6: the zero case at `[]` and the norm case at `[1]`. -/
theorem c6_witness :
    (normSqSum ([] : List ℂ) = 0 ∧ normalizeQuantumState ([] : List ℂ) = []) ∧
      (1 ≤ normSqSum [(1 : ℂ)] ∧
        |l2norm (normalizeQuantumState [(1 : ℂ)]) - 1| < EPSILON) := by
  have h0 : normSqSum ([] : List ℂ) = 0 := by simp [normSqSum]
  have h1 : (1 : ℝ) ≤ normSqSum [(1 : ℂ)] := by simp [normSqSum]
  exact ⟨⟨h0, c6_theorem.1 [] h0⟩, ⟨h1, c6_theorem.2 [(1 : ℂ)] h1⟩⟩

/-! ## C3 — the normalization invariant across the optimizer's operations -/

/-- C3, counterexample: starting from the unit-norm amplitude `[1, 0]`, one
committed iteration of `_apply_quantum_optimization` with correction
`[1, 0]` and learning rate `0.01` commits amplitude `[1.01, 0]` — L2 norm
`1.01`, off by `0.01 ≫ ε`: the cycle's committed state is not
re-normalized. -/
theorem c3_counterexample :
    ¬ |l2norm ((applyQuantumOptimizationStep ⟨[1, 0], [0, 0], 0, []⟩
        [1, 0] [0, 0] 0 (1/100)).amplitudeMatrix) - 1| < EPSILON := by
  show ¬ |l2norm [1 + ((1/100 : ℝ) : ℂ) * 1, 0 + ((1/100 : ℝ) : ℂ) * 0] - 1| < EPSILON
  rw [show (1 + ((1/100 : ℝ) : ℂ) * 1 : ℂ) = ((101/100 : ℝ) : ℂ) by push_cast; ring,
    show (0 + ((1/100 : ℝ) : ℂ) * 0 : ℂ) = ((0 : ℝ) : ℂ) by push_cast; ring]
  unfold l2norm normSqSum
  simp only [List.map_cons, List.map_nil, List.sum_cons, List.sum_nil, add_zero,
    Complex.normSq_ofReal]
  rw [show (101/100 * (101/100) + 0 * 0 : ℝ) = (101/100) ^ 2 by ring,
    Real.sqrt_sq (by norm_num)]
  norm_num [abs_lt, EPSILON]

/-- C3, amended: the initial normalization pass does produce an amplitude
of L2 norm within `ε` of 1 (for inputs of norm at least 1), but the
per-cycle committed amplitude is the raw additive update — for a
single-entry state its committed norm is exactly `|a + lr·c|`, so the unit
norm survives a cycle only when the correction happens to preserve it. -/
theorem c3_theorem :
    (∀ x : List ℂ, 1 ≤ normSqSum x →
        |l2norm (normalizeQuantumState x) - 1| < EPSILON) ∧
      ∀ (a c : ℂ) (p pc : List ℝ) (coh newCoh lr : ℝ),
        l2norm ((applyQuantumOptimizationStep ⟨[a], p, coh, []⟩
            [c] pc newCoh lr).amplitudeMatrix)
          = Complex.abs (a + ((lr : ℝ) : ℂ) * c) := by
  constructor
  · exact normalize_norm_close
  · intro a c p pc coh newCoh lr
    show l2norm [a + ((lr : ℝ) : ℂ) * c] = _
    unfold l2norm normSqSum
    simp only [List.map_cons, List.map_nil, List.sum_cons, List.sum_nil, add_zero]
    exact Complex.abs_apply.symm

/-- Witness for C3 at the input `[2]` (squared norm 4 ≥ 1). -/
theorem c3_witness :
    (1 ≤ normSqSum [(2 : ℂ)]) ∧
      |l2norm (normalizeQuantumState [(2 : ℂ)]) - 1| < EPSILON := by
  have h : (1 : ℝ) ≤ normSqSum [(2 : ℂ)] := by
    simp [normSqSum, Complex.normSq_apply]
    norm_num
  exact ⟨h, c3_theorem.1 [(2 : ℂ)] h⟩

/-! ## C4 — the bounded coherence metric -/

lemma offDiagAbsSum_nonneg {D : ℕ} (x : Fin D → ℂ) : 0 ≤ offDiagAbsSum x := by
  unfold offDiagAbsSum
  apply Finset.sum_nonneg
  intro i _
  apply Finset.sum_nonneg
  intro j _
  split
  · exact le_refl 0
  · exact Complex.abs.nonneg _

/-- The off-diagonal magnitude sum equals `(Σ|x_i|)² − Σ|x_i|²`. -/
lemma offDiagAbsSum_eq {D : ℕ} (x : Fin D → ℂ) :
    offDiagAbsSum x =
      (∑ i, Complex.abs (x i)) ^ 2 - ∑ i, Complex.abs (x i) ^ 2 := by
  unfold offDiagAbsSum
  have hterm : ∀ i j : Fin D,
      (if i = j then (0 : ℝ) else Complex.abs (x i * (starRingEnd ℂ) (x j)))
        = Complex.abs (x i) * Complex.abs (x j)
            - (if i = j then Complex.abs (x i) * Complex.abs (x j) else 0) := by
    intro i j
    by_cases hij : i = j
    · simp [hij]
    · simp [hij, map_mul, Complex.abs_conj]
  simp_rw [hterm, Finset.sum_sub_distrib, Finset.sum_ite_eq, Finset.mem_univ, if_true]
  rw [show (∑ i, Complex.abs (x i)) ^ 2
      = ∑ i, ∑ j, Complex.abs (x i) * Complex.abs (x j) from by
    rw [sq, Fintype.sum_mul_sum]]
  simp_rw [sq]

/-- C4, counterexample: on the unnormalized input `[2, 2]` the source's
`calculate_coherence` returns `(|4| + |4|) / (2·1) = 4`, far above
`1 − ε` — there is no clipping inside the function, so its output does not
always lie in `[0, 1−ε]`. -/
theorem c4_counterexample :
    calculateCoherence ![(2 : ℂ), 2] = 4 ∧
      MAX_COHERENCE < calculateCoherence ![(2 : ℂ), 2] := by
  have hval : calculateCoherence ![(2 : ℂ), 2] = 4 := by
    unfold calculateCoherence offDiagAbsSum coherenceDivisor
    rw [Fin.sum_univ_two, Fin.sum_univ_two, Fin.sum_univ_two]
    norm_num [map_ofNat]
  refine ⟨hval, ?_⟩
  rw [hval]
  norm_num [MAX_COHERENCE, EPSILON]

/-- C4, amended: `calculate_coherence` itself applies no clip; the clip
into `[0, 1−ε]` exists only as the separate `_bound_coherence`, whose
output always lies in that range.  For unit-norm states of dimension
`D ≥ 2`, however, the unclipped value does lie in `[0, 1−ε]`, because the
off-diagonal sum is at most `D − 1` by Cauchy-Schwarz. -/
theorem c4_theorem :
    (∀ v : ℝ, 0 ≤ boundCoherence v ∧ boundCoherence v ≤ MAX_COHERENCE) ∧
      ∀ (D : ℕ) (x : Fin D → ℂ), 2 ≤ D → (∑ i, Complex.normSq (x i)) = 1 →
        0 ≤ calculateCoherence x ∧ calculateCoherence x ≤ MAX_COHERENCE := by
  constructor
  · intro v
    unfold boundCoherence
    constructor
    · exact le_min (le_max_right v 0) (by norm_num [MAX_COHERENCE, EPSILON])
    · exact min_le_right _ _
  · intro D x hD hnorm
    have hD2 : (2 : ℝ) ≤ (D : ℝ) := by exact_mod_cast hD
    have hdiv : 0 < coherenceDivisor D := by unfold coherenceDivisor; nlinarith
    have hsum_sq : ∑ i, Complex.abs (x i) ^ 2 = 1 := by
      simp_rw [Complex.sq_abs]
      exact hnorm
    have hCS : (∑ i, Complex.abs (x i)) ^ 2 ≤ (D : ℝ) := by
      have h := sq_sum_le_card_mul_sum_sq (s := (Finset.univ : Finset (Fin D)))
        (f := fun i => Complex.abs (x i))
      rw [Finset.card_univ, Fintype.card_fin, hsum_sq, mul_one] at h
      exact h
    have hoff_le : offDiagAbsSum x ≤ (D : ℝ) - 1 := by
      rw [offDiagAbsSum_eq, hsum_sq]
      linarith
    constructor
    · exact div_nonneg (offDiagAbsSum_nonneg x) hdiv.le
    · have hle : calculateCoherence x ≤ ((D : ℝ) - 1) / coherenceDivisor D := by
        unfold calculateCoherence
        exact (div_le_div_iff_of_pos_right hdiv).2 hoff_le
      have heq : ((D : ℝ) - 1) / coherenceDivisor D = 1 / (D : ℝ) := by
        unfold coherenceDivisor
        rw [div_eq_div_iff (by nlinarith) (by linarith)]
        ring
      have hhalf : (1 : ℝ) / (D : ℝ) ≤ 1 / 2 :=
        one_div_le_one_div_of_le (by norm_num) hD2
      have : (1 : ℝ) / 2 ≤ MAX_COHERENCE := by norm_num [MAX_COHERENCE, EPSILON]
      rw [heq] at hle
      linarith

/-- Witness for C4 at the unit-norm state `[1, 0]` of dimension 2. -/
theorem c4_witness :
    (2 ≤ 2) ∧ ((∑ i, Complex.normSq ((![1, 0] : Fin 2 → ℂ) i)) = 1) ∧
      (0 ≤ calculateCoherence (![1, 0] : Fin 2 → ℂ) ∧
        calculateCoherence (![1, 0] : Fin 2 → ℂ) ≤ MAX_COHERENCE) := by
  have hn : (∑ i, Complex.normSq ((![1, 0] : Fin 2 → ℂ) i)) = 1 := by
    rw [Fin.sum_univ_two]
    simp
  exact ⟨le_refl 2, hn, c4_theorem.2 2 ![1, 0] (le_refl 2) hn⟩

/-! ## C5 — no dimension-mismatch failure in the coupling computation -/

/-- Field state of dimension 3. -/
def qC5 : QuantumStateM := ⟨[1, 0, 0], [0, 0, 0], 1, []⟩

/-- Adaptive state of activation (and flattened weight) dimension 4. -/
def nC5 : NeuralStateM := ⟨[0, 0, 0, 0], [[1, 2, 3, 4]], [], []⟩

/-- C5, counterexample: a field of dimension 3 paired with an adaptive
state of dimension 4 does **not** fail — `np.outer` flattens and pairs any
two lengths, so the first call yields a well-defined coupling matrix, and
no `DimensionMismatch` exists anywhere in the repository. -/
theorem c5_counterexample :
    (calculateCouplingMatrix qC5 nC5).isSome = true := by
  unfold calculateCouplingMatrix qC5 nC5
  simp [neuralSignature]

/-- C5, amended: the coupling computation is total in the pair of
field/adaptive dimensions: whenever the weight-tensor averaging succeeds
and the phase column aligns with the flattened amplitude, it returns a
(field-dimension × adaptive-signature-dimension) matrix; the two
dimensions are never compared against each other. -/
theorem c5_theorem (q : QuantumStateM) (n : NeuralStateM) (nsig : List ℝ)
    (hsig : neuralSignature n.weightTensors = some nsig)
    (hlen : q.phaseMatrix.length = q.amplitudeMatrix.length) :
    ∃ M, calculateCouplingMatrix q n = some M ∧
      M.length = q.amplitudeMatrix.length ∧
      ∀ row ∈ M, row.length = nsig.length := by
  unfold calculateCouplingMatrix
  rw [hsig]
  simp only [Option.some_bind]
  rw [if_pos hlen]
  refine ⟨_, rfl, ?_, ?_⟩
  · rw [List.length_map, List.length_zip, hlen, min_self]
  · intro row hrow
    obtain ⟨qp, -, rfl⟩ := List.mem_map.1 hrow
    exact List.length_map _ _

/-- Witness for C5 at the 3-dimensional field and 4-dimensional adaptive
state. -/
theorem c5_witness :
    neuralSignature nC5.weightTensors = some [1, 2, 3, 4] ∧
      qC5.phaseMatrix.length = qC5.amplitudeMatrix.length ∧
      ∃ M, calculateCouplingMatrix qC5 nC5 = some M ∧
        M.length = qC5.amplitudeMatrix.length ∧
        ∀ row ∈ M, row.length = [(1 : ℝ), 2, 3, 4].length := by
  have hsig : neuralSignature nC5.weightTensors = some [1, 2, 3, 4] := by
    show neuralSignature [[(1 : ℝ), 2, 3, 4]] = _
    simp [neuralSignature, vecAdd]
  exact ⟨hsig, rfl, c5_theorem qC5 nC5 [1, 2, 3, 4] hsig rfl⟩

end QuantumFramework
